import Mathlib

/-!
Verification of the svckit Prometheus metric driver (Go package
`metric/prometheus`) against its specification.

The Go code is shallowly embedded: strings become `List Char`, Go maps
become association lists where a later (prepended) binding shadows an
earlier one, the shared `prometheus.Registry` plus the identities of the
live collector objects become an explicit `Env` value that is threaded
through the operations, and `float64` arithmetic is modelled exactly in
`ℚ`.  Locks are dropped: the embedding is the sequential semantics of the
locked code (the double-checked fast path and slow path collapse into one
lookup).
-/

namespace Svckit

/-- Metric names and other Go strings, as lists of characters. -/
abbrev Name := List Char

/-- A character admitted by the Go regex class `[a-zA-Z0-9_:]`
(`invalidCharsRegex` matches its complement). -/
def isValidChar (c : Char) : Bool :=
  (('a' ≤ c && c ≤ 'z') || ('A' ≤ c && c ≤ 'Z') || ('0' ≤ c && c ≤ '9')
    || c = '_' || c = ':')

/-- A character admitted as the first character by the Go regex
`^[^a-zA-Z_]` (`startsWithInvalidRegex` matches strings whose first
character is NOT one of these). -/
def isStartValid (c : Char) : Bool :=
  (('a' ≤ c && c ≤ 'z') || ('A' ≤ c && c ≤ 'Z') || c = '_')

/-- `strings.ReplaceAll(name, ".", "_")` from `sanitizeName`. -/
def replaceDots (s : Name) : Name :=
  s.map (fun c => if c = '.' then '_' else c)

/-- `invalidCharsRegex.ReplaceAllString(name, "_")` from `sanitizeName`:
every character outside `[a-zA-Z0-9_:]` is replaced by an underscore. -/
def replaceInvalid (s : Name) : Name :=
  s.map (fun c => if isValidChar c then c else '_')

/-- Embedding of `sanitizeName` (part_002 lines 57-70): replace dots,
replace invalid characters, and prepend an underscore when
`startsWithInvalidRegex` matches (it matches exactly the nonempty strings
whose first character is not a letter or underscore; it never matches the
empty string, which needs at least one character). -/
def sanitizeName (s : Name) : Name :=
  let s1 := replaceDots s
  let s2 := replaceInvalid s1
  match s2 with
  | [] => []
  | c :: _ => if isStartValid c then s2 else '_' :: s2

/-- The Prometheus identifier grammar `^[A-Za-z_][A-Za-z0-9_:]*$` from the
specification: one start-valid character followed by valid characters. -/
def matchesIdentGrammar : Name → Bool
  | [] => false
  | c :: rest => isStartValid c && rest.all isValidChar

/-- The three collector kinds the driver creates. -/
inductive MetricKind
  | counter
  | gauge
  | histogram
deriving DecidableEq

/-- Association-list lookup.  A Go map is embedded as an association list
in which the most recent binding for a key is the first one found. -/
def alookup {α β : Type} [DecidableEq α] : List (α × β) → α → Option β
  | [], _ => none
  | (k, v) :: rest, a => if k = a then some v else alookup rest a

/-- Ambient state of the Prometheus client library shared by all stores:
`kinds` records every collector object ever constructed (keyed by an
allocation id standing for the object's address, carrying its dynamic
kind), `registered` is the contents of the shared `prometheus.Registry`
(full metric name to collector id), `values` holds the current value of
each counter/gauge, `observed` the observations of each histogram
(newest first), and `logs` the error log lines emitted by the driver. -/
structure Env where
  nextId : Nat
  kinds : List (Nat × MetricKind)
  registered : List (Name × Nat)
  values : List (Nat × ℚ)
  observed : List (Nat × List ℚ)
  logs : List Name
deriving DecidableEq

/-- `prometheus.NewCounter` / `NewGauge` / `NewHistogram`: allocate a
fresh collector object of the given kind.  Construction metadata (help
text, namespace, subsystem, histogram buckets) configures exposition only
and does not affect any behavior the claims are about, so it is not
recorded on the collector. -/
def newCollector (e : Env) (k : MetricKind) : Nat × Env :=
  (e.nextId, { e with nextId := e.nextId + 1, kinds := (e.nextId, k) :: e.kinds })

/-- `registry.Register`: reports `AlreadyRegisteredError` (carrying the
existing collector) when the metric name is already registered, and
records the new collector otherwise. -/
def register (e : Env) (n : Name) (id : Nat) : Except Nat Env :=
  match alookup e.registered n with
  | some j => .error j
  | none => .ok { e with registered := (n, id) :: e.registered }

/-- `logger().S("name", metricName).Error(err)`: emit an error log line. -/
def logError (e : Env) (n : Name) : Env :=
  { e with logs := n :: e.logs }

/-- Current value of a counter or gauge; a fresh collector starts at 0. -/
def valOf (e : Env) (id : Nat) : ℚ :=
  (alookup e.values id).getD 0

/-- `counter.Add(v)`. -/
def counterAdd (e : Env) (id : Nat) (v : ℚ) : Env :=
  { e with values := (id, valOf e id + v) :: e.values }

/-- `gauge.Set(v)`. -/
def gaugeSet (e : Env) (id : Nat) (v : ℚ) : Env :=
  { e with values := (id, v) :: e.values }

/-- Observations recorded so far by a histogram, newest first. -/
def obsOf (e : Env) (id : Nat) : List ℚ :=
  (alookup e.observed id).getD []

/-- `histogram.Observe(v)`. -/
def observe (e : Env) (id : Nat) (v : ℚ) : Env :=
  { e with observed := (id, v :: obsOf e id) :: e.observed }

/-- Embedding of the Go struct `Prometheus` (part_002 lines 27-39).  The
field `prefix` is rendered `pfx` and `prefixes` is rendered `pfxCache`;
the registry pointer is the shared `Env`, passed explicitly; the mutexes
are dropped (sequential semantics of the locked code).  `pfxCache` maps
the raw requested prefix string to the id of the derived store, store
identity (the Go pointer) being an id into a `World` table. -/
structure Prometheus where
  pfx : Name
  ns : Name
  subsystem : Name
  counters : List (Name × Nat)
  gauges : List (Name × Nat)
  histograms : List (Name × Nat)
  buckets : List ℚ
  pfxCache : List (Name × Nat)
deriving DecidableEq

/-- `newPrometheus(prefix, namespace, subsystem, registry, buckets)`:
all three handle maps and the prefix cache start empty. -/
def newPrometheus (pfx ns subsystem : Name) (buckets : List ℚ) : Prometheus :=
  ⟨pfx, ns, subsystem, [], [], [], buckets, []⟩

/-- `Prometheus.buildMetricName`: sanitize the local name, and when the
store's prefix is nonempty prepend the independently sanitized prefix. -/
def Prometheus.buildMetricName (p : Prometheus) (name : Name) : Name :=
  let sanitized := sanitizeName name
  if p.pfx ≠ [] then sanitizeName p.pfx ++ sanitized else sanitized

/-- Embedding of `getOrCreateCounter`: return the cached handle when
present; otherwise build the full metric name, construct a fresh counter
and try to register it.  On `AlreadyRegisteredError` the Go code type
asserts `are.ExistingCollector.(prometheus.Counter)`, modelled at the
specification's boundary as a check of the existing collector's kind:
matching kind is adopted into the cache and returned, otherwise the
failure is logged and the fresh, unregistered handle is returned without
touching the cache. -/
def Prometheus.getOrCreateCounter (p : Prometheus) (e : Env) (name : Name) :
    Nat × Prometheus × Env :=
  match alookup p.counters name with
  | some c => (c, p, e)
  | none =>
    let metricName := p.buildMetricName name
    let ce := newCollector e MetricKind.counter
    match register ce.2 metricName ce.1 with
    | .error j =>
        match alookup ce.2.kinds j with
        | some MetricKind.counter =>
            (j, { p with counters := (name, j) :: p.counters }, ce.2)
        | _ => (ce.1, p, logError ce.2 metricName)
    | .ok e2 => (ce.1, { p with counters := (name, ce.1) :: p.counters }, e2)

/-- Embedding of `getOrCreateGauge`, symmetric to `getOrCreateCounter`. -/
def Prometheus.getOrCreateGauge (p : Prometheus) (e : Env) (name : Name) :
    Nat × Prometheus × Env :=
  match alookup p.gauges name with
  | some g => (g, p, e)
  | none =>
    let metricName := p.buildMetricName name
    let ce := newCollector e MetricKind.gauge
    match register ce.2 metricName ce.1 with
    | .error j =>
        match alookup ce.2.kinds j with
        | some MetricKind.gauge =>
            (j, { p with gauges := (name, j) :: p.gauges }, ce.2)
        | _ => (ce.1, p, logError ce.2 metricName)
    | .ok e2 => (ce.1, { p with gauges := (name, ce.1) :: p.gauges }, e2)

/-- Embedding of `getOrCreateHistogram`, symmetric to
`getOrCreateCounter` (the store's buckets configure the new histogram's
exposition and are not otherwise observable). -/
def Prometheus.getOrCreateHistogram (p : Prometheus) (e : Env) (name : Name) :
    Nat × Prometheus × Env :=
  match alookup p.histograms name with
  | some h => (h, p, e)
  | none =>
    let metricName := p.buildMetricName name
    let ce := newCollector e MetricKind.histogram
    match register ce.2 metricName ce.1 with
    | .error j =>
        match alookup ce.2.kinds j with
        | some MetricKind.histogram =>
            (j, { p with histograms := (name, j) :: p.histograms }, ce.2)
        | _ => (ce.1, p, logError ce.2 metricName)
    | .ok e2 => (ce.1, { p with histograms := (name, ce.1) :: p.histograms }, e2)

/-- The loop `value := 0; for _, v := range values { value += v }`. -/
def sumLoop (values : List Int) : Int :=
  values.foldl (fun a b => a + b) 0

/-- Embedding of `Prometheus.Counter`: increment by 1 when called with no
values, else by their sum; the amount is handed to `counter.Add`
unvalidated. -/
def Prometheus.Counter (p : Prometheus) (e : Env) (name : Name)
    (values : List Int) : Prometheus × Env :=
  let value : Int := if values.length > 0 then sumLoop values else 1
  let r := p.getOrCreateCounter e name
  (r.2.1, counterAdd r.2.2 r.1 (value : ℚ))

/-- Embedding of `Prometheus.Gauge`: set the gauge to the value. -/
def Prometheus.Gauge (p : Prometheus) (e : Env) (name : Name) (value : Int) :
    Prometheus × Env :=
  let r := p.getOrCreateGauge e name
  (r.2.1, gaugeSet r.2.2 r.1 (value : ℚ))

/-- Embedding of `Prometheus.Time`: the duration argument is in
nanoseconds and is converted to seconds (`float64(duration) / 1e9`,
modelled exactly in `ℚ`) before being observed by the histogram. -/
def Prometheus.Time (p : Prometheus) (e : Env) (name : Name)
    (duration : Int) : Prometheus × Env :=
  let r := p.getOrCreateHistogram e name
  (r.2.1, observe r.2.2 r.1 ((duration : ℚ) / 1000000000))

/-- The table of live store instances: store ids stand for Go pointers,
`nextSid` is the next unused id. -/
structure World where
  stores : List (Nat × Prometheus)
  nextSid : Nat
deriving DecidableEq

/-- `strings.HasSuffix(s, ".")`. -/
def hasDotSuffix (n : Name) : Bool :=
  match n.getLast? with
  | some c => c = '.'
  | none => false

/-- Embedding of `Prometheus.WithPrefix` (part_002 lines 247-265): look
the RAW requested prefix up in the per-parent cache and return the cached
store when present; otherwise normalize the prefix to end with a dot,
create a new store sharing the parent's configuration (and, implicitly,
the one global `Env` registry), cache it under the raw key and return
it.  The parent is given by its id in the world table. -/
def withPfx (w : World) (pid : Nat) (q : Name) : Nat × World :=
  match alookup w.stores pid with
  | none => (pid, w)
  | some p =>
    match alookup p.pfxCache q with
    | some sid => (sid, w)
    | none =>
      let m := if hasDotSuffix q then q else q ++ ['.']
      let child := newPrometheus m p.ns p.subsystem p.buckets
      let p2 := { p with pfxCache := (q, w.nextSid) :: p.pfxCache }
      (w.nextSid, ⟨(w.nextSid, child) :: (pid, p2) :: w.stores, w.nextSid + 1⟩)

/-- Outcome of `httpServer.ListenAndServe()` inside the background
goroutine of `server.start`: either the deliberate `http.ErrServerClosed`
produced by a shutdown, or a real listener failure such as a bind
error. -/
inductive ListenOutcome
  | serverClosed
  | listenErr (msg : Name)
deriving DecidableEq

/-- The fields of the Go `server` struct that the claims are about. -/
structure Server where
  port : Int
  path : Name
  registryId : Nat
deriving DecidableEq

/-- Embedding of `server.start` (server.go lines 40-76): the handler
registrations and timeouts configure serving only and are elided.  The
first component is the error value handed back to the caller (`none` is
Go's `nil`; the source returns `nil` unconditionally at line 75).  The
second component is the list of error log lines produced by the
background serving goroutine, which logs the listen error unless it is
`http.ErrServerClosed`. -/
def serverStart (outcome : ListenOutcome) : Option Name × List Name :=
  match outcome with
  | .serverClosed => (none, [])
  | .listenErr m => (none, [m])

/-- The process-wide `currentServer` variable. -/
structure SrvState where
  currentServer : Option Server
deriving DecidableEq

/-- Embedding of `startServer` (server.go lines 98-109): stop any running
server (the old instance's shutdown has no effect on the modelled state
beyond its replacement), install the new server as the process-wide
`currentServer`, and delegate to `start`. -/
def startServer (_st : SrvState) (port : Int) (path : Name) (reg : Nat)
    (outcome : ListenOutcome) : Option Name × SrvState × List Name :=
  let s : Server := ⟨port, path, reg⟩
  let r := serverStart outcome
  (r.1, ⟨some s⟩, r.2)

/-- Result of a `MustDial` run: normal return after some number of `Dial`
attempts, or `log.Fatal` with the last error after some number of
attempts. -/
inductive DialTrace
  | success (attempts : Nat)
  | fatal (attempts : Nat) (err : Name)
deriving DecidableEq

/-- Embedding of the `MustDial` retry loop (part_002 lines 319-330).  The
Go loop keeps a counter `r` starting at 0 and calls `log.Fatal` when a
`Dial` attempt fails with `r > 10`; since `r` equals the number of
failures seen so far, the loop is re-indexed structurally by the
remaining retry budget `fuel = 11 - r` (`r > 10` exactly when
`fuel = 0`).  `oc k` is the outcome of the `k`-th call to `Dial`
(`none` = success, `some e` = failure with error `e`); the one-second
sleep between attempts is not modelled. -/
def dialLoop (oc : Nat → Option Name) : Nat → Nat → DialTrace
  | fuel, i =>
    match oc i with
    | none => .success (i + 1)
    | some e =>
      match fuel with
      | 0 => .fatal (i + 1) e
      | fuel' + 1 => dialLoop oc fuel' (i + 1)

/-- `MustDial`: run the retry loop with `r = 0`, i.e. fuel 11. -/
def MustDial (oc : Nat → Option Name) : DialTrace :=
  dialLoop oc 11 0

/-- A root store as created by `Dial` before applying any prefix. -/
def prom0 : Prometheus :=
  newPrometheus [] [] [] []

/-- A world containing only `prom0`, with id 0. -/
def w0 : World :=
  ⟨[(0, prom0)], 1⟩

/-- An empty client-library state. -/
def env0 : Env :=
  ⟨0, [], [], [], [], []⟩

/-- A client-library state in which the name "x" is already registered to
a gauge collector with id 5 (and six collectors have been allocated). -/
def envReg : Env :=
  ⟨6, [(5, MetricKind.gauge)], [(['x'], 5)], [], [], []⟩

/-- The raw prefix "api". -/
def apiQ : Name := ['a', 'p', 'i']

/-- The raw prefix "api." (normalized form of "api"). -/
def apiDotQ : Name := ['a', 'p', 'i', '.']

/-- A sample bind error message. -/
def errAddrInUse : Name := ['b', 'i', 'n', 'd']

/-- The default metrics path "/metrics". -/
def mpath : Name := ['/', 'm', 'e', 't', 'r', 'i', 'c', 's']

theorem isValidChar_underscore : isValidChar '_' = true := by decide

theorem isValidChar_replaced (c : Char) :
    isValidChar (if isValidChar c then c else '_') = true := by
  by_cases h : isValidChar c
  · simp [h]
  · simp [h]; decide

theorem replaceInvalid_all_valid (s : Name) :
    (replaceInvalid s).all isValidChar = true := by
  induction s with
  | nil => rfl
  | cons c rest ih =>
      simp only [replaceInvalid, List.map_cons, List.all_cons, Bool.and_eq_true] at *
      exact ⟨isValidChar_replaced c, ih⟩

theorem isStartValid_underscore : isStartValid '_' = true := by decide

theorem isValidChar_ne_dot (c : Char) (h : isValidChar c = true) : c ≠ '.' := by
  intro hc
  subst hc
  exact absurd h (by decide)

theorem replaceDots_of_all_valid (s : Name) (h : s.all isValidChar = true) :
    replaceDots s = s := by
  induction s with
  | nil => rfl
  | cons c rest ih =>
      simp only [List.all_cons, Bool.and_eq_true] at h
      simp only [replaceDots, List.map_cons]
      rw [if_neg (isValidChar_ne_dot c h.1)]
      have := ih h.2
      simp only [replaceDots] at this
      rw [this]

theorem replaceInvalid_of_all_valid (s : Name) (h : s.all isValidChar = true) :
    replaceInvalid s = s := by
  induction s with
  | nil => rfl
  | cons c rest ih =>
      simp only [List.all_cons, Bool.and_eq_true] at h
      simp only [replaceInvalid, List.map_cons]
      rw [if_pos h.1]
      have := ih h.2
      simp only [replaceInvalid] at this
      rw [this]

theorem sanitizeName_all_valid (s : Name) :
    (sanitizeName s).all isValidChar = true := by
  simp only [sanitizeName]
  cases h2 : replaceInvalid (replaceDots s) with
  | nil => rfl
  | cons c rest =>
      have hall : (c :: rest).all isValidChar = true := by
        rw [← h2]; exact replaceInvalid_all_valid (replaceDots s)
      simp only [List.all_cons, Bool.and_eq_true] at hall
      by_cases hs : isStartValid c = true
      · simp [hs, List.all_cons, hall.1, hall.2]
      · simp [hs, List.all_cons, isValidChar_underscore, hall.1, hall.2]

theorem sanitizeName_grammar_of_ne_nil (s : Name) (h : s ≠ []) :
    matchesIdentGrammar (sanitizeName s) = true := by
  simp only [sanitizeName]
  cases h2 : replaceInvalid (replaceDots s) with
  | nil =>
      exact absurd (by simpa [replaceInvalid, replaceDots] using h2) h
  | cons c rest =>
      have hall : (c :: rest).all isValidChar = true := by
        rw [← h2]; exact replaceInvalid_all_valid (replaceDots s)
      simp only [List.all_cons, Bool.and_eq_true] at hall
      by_cases hsv : isStartValid c = true
      · simp [matchesIdentGrammar, hsv, hall.1, hall.2]
      · simp [matchesIdentGrammar, hsv, isStartValid_underscore, List.all_cons,
          hall.1, hall.2]

theorem isStartValid_imp_valid (c : Char) (h : isStartValid c = true) :
    isValidChar c = true := by
  simp only [isStartValid, isValidChar, Bool.or_eq_true, Bool.and_eq_true,
    decide_eq_true_eq] at *
  tauto

theorem sanitizeName_fixed_of_grammar (t : Name)
    (h : matchesIdentGrammar t = true) : sanitizeName t = t := by
  cases t with
  | nil => simp [matchesIdentGrammar] at h
  | cons c rest =>
      simp only [matchesIdentGrammar, Bool.and_eq_true] at h
      have hall : (c :: rest).all isValidChar = true := by
        simp [List.all_cons, isStartValid_imp_valid c h.1, h.2]
      simp only [sanitizeName]
      rw [replaceDots_of_all_valid _ hall, replaceInvalid_of_all_valid _ hall]
      simp [h.1]

/-- Claim C2 counterexample: `sanitizeName` applied to the empty string
returns the empty string, which does not match
`^[A-Za-z_][A-Za-z0-9_:]*$`, so the claimed property fails at `s = ""`. -/
theorem sanitizeName_grammar_cex :
    sanitizeName [] = [] ∧ matchesIdentGrammar (sanitizeName []) = false := by
  constructor <;> rfl

/-- Claim C2 (amended): for every NONEMPTY string `s`, `sanitizeName s`
matches `^[A-Za-z_][A-Za-z0-9_:]*$`; the empty string is mapped to the
empty string, which does not match. -/
theorem sanitizeName_grammar (s : Name) (h : s ≠ []) :
    matchesIdentGrammar (sanitizeName s) = true :=
  sanitizeName_grammar_of_ne_nil s h

/-- Witness for the amended C2 at the concrete input "abc". -/
theorem sanitizeName_grammar_witness :
    matchesIdentGrammar (sanitizeName ['a', 'b', 'c']) = true :=
  sanitizeName_grammar ['a', 'b', 'c'] (by decide)

/-- Claim C8: the sanitizer is idempotent:
`sanitizeName (sanitizeName s) = sanitizeName s` for every string `s`. -/
theorem sanitizeName_idempotent (s : Name) :
    sanitizeName (sanitizeName s) = sanitizeName s := by
  by_cases h : s = []
  · subst h; rfl
  · exact sanitizeName_fixed_of_grammar _ (sanitizeName_grammar_of_ne_nil s h)

/-- Claim C9: the empty string is a fixed point of the sanitizer (no
underscore is prepended), so an empty local name on a store with an empty
prefix yields an empty metric identifier, which does not satisfy the
backend's identifier grammar. -/
theorem sanitizeName_empty :
    sanitizeName [] = [] ∧ prom0.buildMetricName [] = [] ∧
      matchesIdentGrammar [] = false := by
  refine ⟨rfl, ?_, rfl⟩
  decide

theorem foldl_add_eq_sum (l : List Int) :
    ∀ a : Int, l.foldl (fun x y => x + y) a = a + l.sum := by
  induction l with
  | nil => intro a; simp
  | cons b bs ih =>
      intro a
      simp only [List.foldl_cons, List.sum_cons, ih]
      ring

theorem sumLoop_eq_sum (l : List Int) : sumLoop l = l.sum := by
  simp [sumLoop, foldl_add_eq_sum]

theorem valOf_counterAdd (e : Env) (id : Nat) (v : ℚ) :
    valOf (counterAdd e id v) id = valOf e id + v := by
  simp [valOf, counterAdd, alookup]

theorem obsOf_observe (e : Env) (id : Nat) (v : ℚ) :
    obsOf (observe e id v) id = v :: obsOf e id := by
  simp [obsOf, observe, alookup]

/-- Claim C6: `Counter(name)` with no values increments the resolved
counter by 1; `Counter(name, v1, ..., vN)` increments it by the sum of
the values, and a zero or negative sum is passed through to the
underlying counter's `Add` unvalidated (the equation holds for every
integer list, with no clamping). -/
theorem Counter_increments_by_sum (p : Prometheus) (e : Env) (name : Name)
    (values : List Int) :
    valOf (p.Counter e name values).2 (p.getOrCreateCounter e name).1 =
      valOf (p.getOrCreateCounter e name).2.2 (p.getOrCreateCounter e name).1 +
        ((if values = [] then 1 else values.sum : Int) : ℚ) := by
  simp only [Prometheus.Counter, valOf_counterAdd]
  congr 1
  cases values with
  | nil => simp
  | cons a as => simp [sumLoop_eq_sum]

/-- Claim C7: `Time(name, d)` with `d` nanoseconds records exactly the
value `d / 1e9` (the duration in seconds) into the histogram for the
name. -/
theorem Time_records_seconds (p : Prometheus) (e : Env) (name : Name)
    (d : Int) :
    obsOf (p.Time e name d).2 (p.getOrCreateHistogram e name).1 =
      ((d : ℚ) / 1000000000) ::
        obsOf (p.getOrCreateHistogram e name).2.2
          (p.getOrCreateHistogram e name).1 := by
  simp only [Prometheus.Time, obsOf_observe]

/-- Claim C1 counterexample: starting the exposition server when the
listener fails to bind (concretely: port 2112, path "/metrics", a bind
error) returns `nil` to the caller instead of the error, leaves the
process-wide server state set (not absent), and the bind error appears
only in the background task's log. -/
theorem startServer_bind_error_cex :
    (startServer ⟨none⟩ 2112 mpath 0 (.listenErr errAddrInUse)).1 = none ∧
    (startServer ⟨none⟩ 2112 mpath 0
        (.listenErr errAddrInUse)).2.1.currentServer ≠ none ∧
    (startServer ⟨none⟩ 2112 mpath 0 (.listenErr errAddrInUse)).2.2 =
      [errAddrInUse] := by
  refine ⟨rfl, ?_, rfl⟩
  simp [startServer, serverStart]

/-- Claim C1 (amended): for every port, path, registry and bind failure,
starting the exposition server returns `nil` (no error) synchronously to
its caller, installs the new server as the process-wide current server,
and the bind error is only logged by the background serving task. -/
theorem startServer_bind_error_behavior (st : SrvState) (port : Int)
    (path : Name) (reg : Nat) (m : Name) :
    startServer st port path reg (.listenErr m) =
      (none, ⟨some ⟨port, path, reg⟩⟩, [m]) := rfl

theorem dialLoop_all_fail (oc : Nat → Option Name) (es : Nat → Name) :
    ∀ fuel i, (∀ k, i ≤ k → k ≤ i + fuel → oc k = some (es k)) →
      dialLoop oc fuel i = .fatal (i + fuel + 1) (es (i + fuel)) := by
  intro fuel
  induction fuel with
  | zero =>
      intro i h
      have h0 : oc i = some (es i) := h i (le_refl i) (by omega)
      simp [dialLoop, h0]
  | succ f ih =>
      intro i h
      have h0 : oc i = some (es i) := h i (le_refl i) (by omega)
      have step := ih (i + 1) (fun k hk1 hk2 => h k (by omega) (by omega))
      have e1 : i + 1 + f = i + (f + 1) := by omega
      rw [e1] at step
      simp [dialLoop, h0, step]

theorem dialLoop_first_success (oc : Nat → Option Name) :
    ∀ n fuel i, n ≤ fuel → (∀ k, i ≤ k → k < i + n → oc k ≠ none) →
      oc (i + n) = none → dialLoop oc fuel i = .success (i + n + 1) := by
  intro n
  induction n with
  | zero =>
      intro fuel i _ _ hs
      simp only [Nat.add_zero] at hs
      simp [dialLoop, hs]
  | succ m ih =>
      intro fuel i hf hfail hs
      cases fuel with
      | zero => omega
      | succ f =>
          have h0 : oc i ≠ none := hfail i (le_refl i) (by omega)
          obtain ⟨e, he⟩ := Option.ne_none_iff_exists'.mp h0
          have step := ih f (i + 1) (by omega)
            (fun k hk1 hk2 => hfail k (by omega) (by omega))
            (by have e1 : i + 1 + m = i + (m + 1) := by omega
                rw [e1]; exact hs)
          have e1 : i + 1 + m + 1 = i + (m + 1) + 1 := by omega
          rw [e1] at step
          simp [dialLoop, he, step]

/-- Claim C3 counterexample: when every `Dial` attempt fails, `MustDial`
calls `Dial` 12 times before raising the fatal error, i.e. 11 additional
attempts after the first, contradicting the claimed bound of 10
additional attempts (which would mean at most 11 calls). -/
theorem MustDial_retry_count_cex :
    MustDial (fun _ => some errAddrInUse) =
        DialTrace.fatal 12 errAddrInUse ∧
      ¬ ((12 : Nat) - 1 ≤ 10) := by
  exact ⟨rfl, by decide⟩

/-- Claim C3 (amended): `MustDial` calls `Dial`; on failure it retries
(once per second, timing not modelled) with at most 11 additional
attempts after the first, and raises a fatal log entry with the last
error once those retries are exhausted; a success at any of the 12
attempts returns normally without the fatal exit, and within this core
only this exhaustion path terminates the process. -/
theorem MustDial_retry_policy (oc : Nat → Option Name) :
    (∀ es : Nat → Name, (∀ k, k ≤ 11 → oc k = some (es k)) →
        MustDial oc = DialTrace.fatal 12 (es 11)) ∧
    (∀ n, n ≤ 11 → (∀ k, k < n → oc k ≠ none) → oc n = none →
        MustDial oc = DialTrace.success (n + 1)) := by
  constructor
  · intro es h
    have := dialLoop_all_fail oc es 11 0 (fun k hk1 hk2 => h k (by omega))
    simpa [MustDial] using this
  · intro n hn hfail hs
    have := dialLoop_first_success oc n 11 0 hn
      (fun k hk1 hk2 => hfail k (by omega)) (by simpa using hs)
    simpa [MustDial] using this

/-- Witness for the amended C3: with every attempt succeeding, `MustDial`
returns after the first call. -/
theorem MustDial_retry_policy_witness :
    MustDial (fun _ => none) = DialTrace.success 1 :=
  (MustDial_retry_policy (fun _ => none)).2 0 (by decide)
    (fun k hk => absurd hk (by omega)) rfl

theorem getOrCreateCounter_adopt (p : Prometheus) (e : Env) (name : Name)
    (j : Nat) (hc : alookup p.counters name = none)
    (hr : alookup e.registered (p.buildMetricName name) = some j)
    (hj : j ≠ e.nextId)
    (hk : alookup e.kinds j = some MetricKind.counter) :
    p.getOrCreateCounter e name =
      (j, { p with counters := (name, j) :: p.counters },
        (newCollector e MetricKind.counter).2) := by
  simp [Prometheus.getOrCreateCounter, hc, register, newCollector, alookup,
    Ne.symm hj, hr, hk]

theorem getOrCreateCounter_mismatch (p : Prometheus) (e : Env) (name : Name)
    (j : Nat) (hc : alookup p.counters name = none)
    (hr : alookup e.registered (p.buildMetricName name) = some j)
    (hj : j ≠ e.nextId)
    (hk : alookup e.kinds j ≠ some MetricKind.counter) :
    p.getOrCreateCounter e name =
      (e.nextId, p,
        logError (newCollector e MetricKind.counter).2
          (p.buildMetricName name)) := by
  simp [Prometheus.getOrCreateCounter, hc, register, newCollector,
    alookup, Ne.symm hj, hr, hk]

theorem getOrCreateGauge_adopt (p : Prometheus) (e : Env) (name : Name)
    (j : Nat) (hg : alookup p.gauges name = none)
    (hr : alookup e.registered (p.buildMetricName name) = some j)
    (hj : j ≠ e.nextId)
    (hk : alookup e.kinds j = some MetricKind.gauge) :
    p.getOrCreateGauge e name =
      (j, { p with gauges := (name, j) :: p.gauges },
        (newCollector e MetricKind.gauge).2) := by
  simp [Prometheus.getOrCreateGauge, hg, register, newCollector, alookup,
    Ne.symm hj, hr, hk]

theorem getOrCreateGauge_mismatch (p : Prometheus) (e : Env) (name : Name)
    (j : Nat) (hg : alookup p.gauges name = none)
    (hr : alookup e.registered (p.buildMetricName name) = some j)
    (hj : j ≠ e.nextId)
    (hk : alookup e.kinds j ≠ some MetricKind.gauge) :
    p.getOrCreateGauge e name =
      (e.nextId, p,
        logError (newCollector e MetricKind.gauge).2
          (p.buildMetricName name)) := by
  simp [Prometheus.getOrCreateGauge, hg, register, newCollector, alookup,
    Ne.symm hj, hr, hk]

theorem getOrCreateHistogram_adopt (p : Prometheus) (e : Env) (name : Name)
    (j : Nat) (hh : alookup p.histograms name = none)
    (hr : alookup e.registered (p.buildMetricName name) = some j)
    (hj : j ≠ e.nextId)
    (hk : alookup e.kinds j = some MetricKind.histogram) :
    p.getOrCreateHistogram e name =
      (j, { p with histograms := (name, j) :: p.histograms },
        (newCollector e MetricKind.histogram).2) := by
  simp [Prometheus.getOrCreateHistogram, hh, register, newCollector, alookup,
    Ne.symm hj, hr, hk]

theorem getOrCreateHistogram_mismatch (p : Prometheus) (e : Env) (name : Name)
    (j : Nat) (hh : alookup p.histograms name = none)
    (hr : alookup e.registered (p.buildMetricName name) = some j)
    (hj : j ≠ e.nextId)
    (hk : alookup e.kinds j ≠ some MetricKind.histogram) :
    p.getOrCreateHistogram e name =
      (e.nextId, p,
        logError (newCollector e MetricKind.histogram).2
          (p.buildMetricName name)) := by
  simp [Prometheus.getOrCreateHistogram, hh, register, newCollector, alookup,
    Ne.symm hj, hr, hk]

/-- Claim C4: for each metric kind and each name, when registering the
newly built handle the registry reports the identity already registered
and the existing collector has the requested kind, `getOrCreate` adopts
the existing collector into the store's cache and returns it; when the
existing collector's kind does not match the requested kind, the store
logs the failure (the metric name is appended to the log) and returns
its own fresh, unregistered handle with the cache and the registry left
unchanged. -/
theorem getOrCreate_conflict_policy (p : Prometheus) (e : Env) (name : Name)
    (j : Nat)
    (hc : alookup p.counters name = none)
    (hg : alookup p.gauges name = none)
    (hh : alookup p.histograms name = none)
    (hr : alookup e.registered (p.buildMetricName name) = some j)
    (hj : j ≠ e.nextId) :
    ((alookup e.kinds j = some MetricKind.counter →
        p.getOrCreateCounter e name =
          (j, { p with counters := (name, j) :: p.counters },
            (newCollector e MetricKind.counter).2)) ∧
      (alookup e.kinds j ≠ some MetricKind.counter →
        p.getOrCreateCounter e name =
          (e.nextId, p,
            logError (newCollector e MetricKind.counter).2
              (p.buildMetricName name)))) ∧
    ((alookup e.kinds j = some MetricKind.gauge →
        p.getOrCreateGauge e name =
          (j, { p with gauges := (name, j) :: p.gauges },
            (newCollector e MetricKind.gauge).2)) ∧
      (alookup e.kinds j ≠ some MetricKind.gauge →
        p.getOrCreateGauge e name =
          (e.nextId, p,
            logError (newCollector e MetricKind.gauge).2
              (p.buildMetricName name)))) ∧
    ((alookup e.kinds j = some MetricKind.histogram →
        p.getOrCreateHistogram e name =
          (j, { p with histograms := (name, j) :: p.histograms },
            (newCollector e MetricKind.histogram).2)) ∧
      (alookup e.kinds j ≠ some MetricKind.histogram →
        p.getOrCreateHistogram e name =
          (e.nextId, p,
            logError (newCollector e MetricKind.histogram).2
              (p.buildMetricName name)))) :=
  ⟨⟨fun hk => getOrCreateCounter_adopt p e name j hc hr hj hk,
    fun hk => getOrCreateCounter_mismatch p e name j hc hr hj hk⟩,
   ⟨fun hk => getOrCreateGauge_adopt p e name j hg hr hj hk,
    fun hk => getOrCreateGauge_mismatch p e name j hg hr hj hk⟩,
   ⟨fun hk => getOrCreateHistogram_adopt p e name j hh hr hj hk,
    fun hk => getOrCreateHistogram_mismatch p e name j hh hr hj hk⟩⟩

/-- Witness for C4 at a concrete store and registry: the name "x" is
registered to a gauge with id 5, so the gauge request adopts id 5 into
the cache while the counter request falls back to the fresh handle with
id 6 and logs the name. -/
theorem getOrCreate_conflict_policy_witness :
    prom0.getOrCreateGauge envReg ['x'] =
      (5, { prom0 with gauges := (['x'], 5) :: prom0.gauges },
        (newCollector envReg MetricKind.gauge).2) ∧
    prom0.getOrCreateCounter envReg ['x'] =
      (envReg.nextId, prom0,
        logError (newCollector envReg MetricKind.counter).2
          (prom0.buildMetricName ['x'])) :=
  ⟨(getOrCreate_conflict_policy prom0 envReg ['x'] 5 rfl rfl rfl (by decide)
      (by decide)).2.1.1 (by decide),
   (getOrCreate_conflict_policy prom0 envReg ['x'] 5 rfl rfl rfl (by decide)
      (by decide)).1.2 (by decide)⟩

/-- Claim C10: on the failed-adoption path (the existing collector's kind
does not match the requested kind), each `getOrCreate` returns the fresh
unregistered handle without touching the store's name-to-handle map or
the registry, so a second call for the same name constructs and returns
a new handle distinct from the previous one. -/
theorem getOrCreate_mismatch_no_cache (p : Prometheus) (e : Env)
    (name : Name) (j : Nat)
    (hc : alookup p.counters name = none)
    (hg : alookup p.gauges name = none)
    (hh : alookup p.histograms name = none)
    (hr : alookup e.registered (p.buildMetricName name) = some j)
    (hjlt : j < e.nextId) :
    ((alookup e.kinds j ≠ some MetricKind.counter →
        (p.getOrCreateCounter e name).2.1 = p ∧
        (p.getOrCreateCounter e name).1 = e.nextId ∧
        ((p.getOrCreateCounter e name).2.2).registered = e.registered ∧
        ((p.getOrCreateCounter e name).2.1.getOrCreateCounter
            (p.getOrCreateCounter e name).2.2 name).1 = e.nextId + 1 ∧
        ((p.getOrCreateCounter e name).2.1.getOrCreateCounter
            (p.getOrCreateCounter e name).2.2 name).1 ≠
          (p.getOrCreateCounter e name).1) ∧
      (alookup e.kinds j ≠ some MetricKind.gauge →
        (p.getOrCreateGauge e name).2.1 = p ∧
        (p.getOrCreateGauge e name).1 = e.nextId ∧
        ((p.getOrCreateGauge e name).2.2).registered = e.registered ∧
        ((p.getOrCreateGauge e name).2.1.getOrCreateGauge
            (p.getOrCreateGauge e name).2.2 name).1 = e.nextId + 1 ∧
        ((p.getOrCreateGauge e name).2.1.getOrCreateGauge
            (p.getOrCreateGauge e name).2.2 name).1 ≠
          (p.getOrCreateGauge e name).1) ∧
      (alookup e.kinds j ≠ some MetricKind.histogram →
        (p.getOrCreateHistogram e name).2.1 = p ∧
        (p.getOrCreateHistogram e name).1 = e.nextId ∧
        ((p.getOrCreateHistogram e name).2.2).registered = e.registered ∧
        ((p.getOrCreateHistogram e name).2.1.getOrCreateHistogram
            (p.getOrCreateHistogram e name).2.2 name).1 = e.nextId + 1 ∧
        ((p.getOrCreateHistogram e name).2.1.getOrCreateHistogram
            (p.getOrCreateHistogram e name).2.2 name).1 ≠
          (p.getOrCreateHistogram e name).1)) := by
  have hj : j ≠ e.nextId := by omega
  refine ⟨?_, ?_, ?_⟩
  · intro hk
    have h1 := getOrCreateCounter_mismatch p e name j hc hr hj hk
    have hk2 : alookup (logError (newCollector e MetricKind.counter).2
        (p.buildMetricName name)).kinds j ≠ some MetricKind.counter := by
      have hne : ¬ (e.nextId = j) := by omega
      simp only [logError, newCollector, alookup, if_neg hne]
      exact hk
    have h2 := getOrCreateCounter_mismatch p
      (logError (newCollector e MetricKind.counter).2 (p.buildMetricName name))
      name j hc (by simpa [logError, newCollector] using hr)
      (by simp only [logError, newCollector]; omega) hk2
    rw [h1]
    refine ⟨rfl, rfl, by simp [logError, newCollector], ?_, ?_⟩
    · rw [h2]; simp [logError, newCollector]
    · rw [h2]; simp [logError, newCollector]
  · intro hk
    have h1 := getOrCreateGauge_mismatch p e name j hg hr hj hk
    have hk2 : alookup (logError (newCollector e MetricKind.gauge).2
        (p.buildMetricName name)).kinds j ≠ some MetricKind.gauge := by
      have hne : ¬ (e.nextId = j) := by omega
      simp only [logError, newCollector, alookup, if_neg hne]
      exact hk
    have h2 := getOrCreateGauge_mismatch p
      (logError (newCollector e MetricKind.gauge).2 (p.buildMetricName name))
      name j hg (by simpa [logError, newCollector] using hr)
      (by simp only [logError, newCollector]; omega) hk2
    rw [h1]
    refine ⟨rfl, rfl, by simp [logError, newCollector], ?_, ?_⟩
    · rw [h2]; simp [logError, newCollector]
    · rw [h2]; simp [logError, newCollector]
  · intro hk
    have h1 := getOrCreateHistogram_mismatch p e name j hh hr hj hk
    have hk2 : alookup (logError (newCollector e MetricKind.histogram).2
        (p.buildMetricName name)).kinds j ≠ some MetricKind.histogram := by
      have hne : ¬ (e.nextId = j) := by omega
      simp only [logError, newCollector, alookup, if_neg hne]
      exact hk
    have h2 := getOrCreateHistogram_mismatch p
      (logError (newCollector e MetricKind.histogram).2 (p.buildMetricName name))
      name j hh (by simpa [logError, newCollector] using hr)
      (by simp only [logError, newCollector]; omega) hk2
    rw [h1]
    refine ⟨rfl, rfl, by simp [logError, newCollector], ?_, ?_⟩
    · rw [h2]; simp [logError, newCollector]
    · rw [h2]; simp [logError, newCollector]

/-- Witness for C10 at a concrete store and registry: the name "x" is
registered to a gauge, so the counter path degrades; the map stays
unchanged and the two successive calls yield the distinct fresh ids 6
and 7. -/
theorem getOrCreate_mismatch_no_cache_witness :
    (prom0.getOrCreateCounter envReg ['x']).2.1 = prom0 ∧
    (prom0.getOrCreateCounter envReg ['x']).1 = 6 ∧
    ((prom0.getOrCreateCounter envReg ['x']).2.1.getOrCreateCounter
        (prom0.getOrCreateCounter envReg ['x']).2.2 ['x']).1 = 7 ∧
    ((prom0.getOrCreateCounter envReg ['x']).2.1.getOrCreateCounter
        (prom0.getOrCreateCounter envReg ['x']).2.2 ['x']).1 ≠
      (prom0.getOrCreateCounter envReg ['x']).1 := by
  have h := (getOrCreate_mismatch_no_cache prom0 envReg ['x'] 5 rfl rfl rfl
    (by decide) (by decide)).1 (by decide)
  exact ⟨h.1, h.2.1, h.2.2.2.1, h.2.2.2.2⟩

/-- Claim C5: from any store identified in the world, repeated calls of
`WithPrefix` with the same raw string return the same store instance,
while the cache being keyed by the raw requested string makes
`WithPrefix("api")` and `WithPrefix("api.")` on the same parent yield two
distinct store instances. -/
theorem WithPrefix_cache_behavior (w : World) (pid : Nat) (p : Prometheus)
    (hp : alookup w.stores pid = some p) (hid : pid ≠ w.nextSid) :
    (∀ q, (withPfx (withPfx w pid q).2 pid q).1 = (withPfx w pid q).1) ∧
    (alookup p.pfxCache apiQ = none → alookup p.pfxCache apiDotQ = none →
      (withPfx (withPfx w pid apiQ).2 pid apiDotQ).1 ≠
        (withPfx w pid apiQ).1) := by
  constructor
  · intro q
    cases hq : alookup p.pfxCache q with
    | some sid => simp [withPfx, hp, hq]
    | none => simp [withPfx, hp, hq, alookup, Ne.symm hid]
  · intro h1 h2
    have hne : apiQ ≠ apiDotQ := by decide
    simp [withPfx, hp, h1, h2, alookup, Ne.symm hid, hne]

/-- Witness for C5 in a world holding one root store: requesting "api"
twice returns the same derived id, while "api" then "api." return the
distinct ids 1 and 2. -/
theorem WithPrefix_cache_behavior_witness :
    (withPfx (withPfx w0 0 apiQ).2 0 apiQ).1 = (withPfx w0 0 apiQ).1 ∧
    (withPfx (withPfx w0 0 apiQ).2 0 apiDotQ).1 ≠ (withPfx w0 0 apiQ).1 :=
  ⟨(WithPrefix_cache_behavior w0 0 prom0 rfl (by decide)).1 apiQ,
   (WithPrefix_cache_behavior w0 0 prom0 rfl (by decide)).2 rfl rfl⟩

end Svckit
